import Mathlib

/-!
Verification of the CodeBLEU scoring engine (`codebleu_evaluator.py`).

This file gives a shallow embedding of the scoring engine into Lean:
token sequences become `List String`, n-gram counters become lists of
n-grams queried with `List.count`, Python floats become `ℚ` where the code
performs only field operations and `ℝ` where it calls `math.exp` /
`math.log` / `** 0.5`, Python sets become `Finset String`, and the
CPython `ast.parse` call (an external library, not part of this
repository) is abstracted as a parameter
`parse : String → Option (List String)` returning the list of AST node
type names, or `none` when `ast.parse` raises `SyntaxError`.
-/

namespace CodeBLEU

/-! ### N-gram extraction (`CodeBLEUEvaluator._get_ngrams`)

Python builds `Counter(ngrams)` over the list
`[tuple(tokens[i:i+n]) for i in range(len(tokens) - n + 1)]`.
We keep the underlying list; counter lookups become `List.count`.
`len(tokens) - n + 1` is negative in Python when `n > len + 1` and then
yields an empty range, which matches `Nat` truncated subtraction in the
form `len + 1 - n`. -/
def get_ngrams (tokens : List String) (n : Nat) : List (List String) :=
  (List.range (tokens.length + 1 - n)).map (fun i => (tokens.drop i).take n)

/-! ### Clipped n-gram precision (`calculate_bleu_score`, lines 143-165) -/

/-- Model of `max_counts[ngram]`: the maximum occurrence count of `g` in any
reference's n-gram counter (`defaultdict(int)` defaults to 0). -/
def maxRefCount (refGrams : List (List (List String))) (g : List String) : Nat :=
  refGrams.foldl (fun m r => max m (r.count g)) 0

/-- Model of `correct`: sum over the distinct candidate n-grams of
`min(count, max_counts[ngram])` (iteration over `Counter.items()`
visits each distinct n-gram once, hence `dedup`). -/
def clippedCorrect (cg : List (List String)) (refGrams : List (List (List String))) : Nat :=
  (cg.dedup.map (fun g => min (cg.count g) (maxRefCount refGrams g))).sum

/-- The order-`n` modified precision appended to `precisions` in the loop
body: `0.0` when the candidate has no n-grams of that order, otherwise
`correct / total` where `total = sum(candidate_ngrams.values())`, i.e.
the number of candidate n-grams. -/
def orderPrecision (candidate : List String) (references : List (List String)) (n : Nat) : ℚ :=
  if get_ngrams candidate n = [] then 0
  else if 0 < (get_ngrams candidate n).length then
    ((clippedCorrect (get_ngrams candidate n)
        (references.map (fun r => get_ngrams r n)) : ℚ))
      / ((get_ngrams candidate n).length : ℚ)
  else 0

/-- The `precisions` list built by `for n in range(1, max_n + 1)`. -/
def bleuPrecisions (candidate : List String) (references : List (List String))
    (maxN : Nat) : List ℚ :=
  (List.range' 1 maxN).map (fun n => orderPrecision candidate references n)

/-! ### Brevity penalty (`calculate_bleu_score`, lines 167-175) -/

/-- Model of `min(references, key=lambda ref: abs(len(ref) - candidate_length))`:
the first reference whose length is closest to the candidate length
(Python's `min` keeps the earliest element on ties; the strict `<` in the
fold does the same).  Only called on a non-empty reference list (the
empty case returns early); the `[]` equation is unreachable. -/
def closestRef (candLen : Nat) : List (List String) → List String
  | [] => []
  | r :: rs =>
    rs.foldl
      (fun best ref =>
        if ((ref.length : ℤ) - candLen).natAbs < ((best.length : ℤ) - candLen).natAbs
        then ref else best) r

/-- Brevity penalty: `1.0` when the candidate is longer than the
closest-length reference, else `exp(1 - reference_length /
candidate_length)`, and `0.0` for an empty candidate. -/
noncomputable def brevityPenalty (candidate : List String) (references : List (List String)) : ℝ :=
  if candidate.length > (closestRef candidate.length references).length then 1
  else if 0 < candidate.length then
    Real.exp (1 - ((closestRef candidate.length references).length : ℝ)
      / (candidate.length : ℝ))
  else 0

/-! ### `CodeBLEUEvaluator.calculate_bleu_score` -/

/-- BLEU: returns `0.0` immediately for an empty candidate or an empty
reference list; returns `0.0` when any order's precision is `0`
(`any(p == 0 for p in precisions)`); otherwise multiplies the brevity
penalty by the geometric mean of the precisions, computed as in the
source by `exp(sum(log p) / len(precisions))`. -/
noncomputable def calculate_bleu_score (candidate : List String) (references : List (List String))
    (maxN : Nat) : ℝ :=
  if candidate = [] ∨ references = [] then 0
  else if (0 : ℚ) ∈ bleuPrecisions candidate references maxN then 0
  else
    brevityPenalty candidate references *
      Real.exp
        (((bleuPrecisions candidate references maxN).map
            (fun p => Real.log (p : ℝ))).sum
          / ((bleuPrecisions candidate references maxN).length : ℝ))

/-! ### Keyword tables (`CodeBLEUEvaluator.__init__`, `self.keywords`)

Python stores sets; only membership is used, so a list with membership
tests is an equivalent model. -/
def keywords (language : String) : List String :=
  if language = "python" then
    ["def", "class", "if", "else", "elif", "for", "while", "try", "except",
     "finally", "with", "import", "from", "return", "yield", "lambda",
     "and", "or", "not", "in", "is", "global", "nonlocal", "assert",
     "break", "continue", "pass", "raise", "del", "True", "False", "None"]
  else if language = "javascript" then
    ["function", "var", "let", "const", "if", "else", "for", "while", "do",
     "switch", "case", "default", "break", "continue", "return", "try", "catch",
     "finally", "throw", "new", "this", "typeof", "instanceof", "in", "of",
     "true", "false", "null", "undefined", "class", "extends", "super",
     "static", "async", "await", "yield", "import", "export", "from"]
  else if language = "java" then
    ["class", "interface", "enum", "public", "private", "protected", "static",
     "final", "abstract", "synchronized", "volatile", "transient", "native",
     "if", "else", "for", "while", "do", "switch", "case", "default",
     "break", "continue", "return", "try", "catch", "finally", "throw",
     "throws", "new", "this", "super", "instanceof", "true", "false", "null"]
  else []

/-! ### `CodeBLEUEvaluator.calculate_weighted_bleu_score` -/

/-- Model of `weight_tokens`: each keyword token is duplicated in place, other
tokens pass through unchanged. -/
def weight_tokens (kw : List String) (tokens : List String) : List String :=
  tokens.flatMap (fun token => if token ∈ kw then [token, token] else [token])

/-- Weighted BLEU: delegates to `calculate_bleu_score` (default
`max_n = 4`) on the keyword-duplicated sequences; `self.keywords.get(
language, set())` yields the empty set for unknown languages. -/
noncomputable def calculate_weighted_bleu_score (candidate : List String)
    (references : List (List String)) (language : String) : ℝ :=
  calculate_bleu_score (weight_tokens (keywords language) candidate)
    (references.map (fun ref => weight_tokens (keywords language) ref)) 4

/-! ### Set-similarity ratio

All three matchers (`_calculate_python_ast_score`,
`_calculate_structural_similarity`, `calculate_control_flow_score`)
compare the extracted string lists with the same code:
`1.0` if both are empty, `0.0` if exactly one is empty, else
`len(set & set) / len(set | set)` guarded by `total > 0`. -/
def setScore (c r : List String) : ℚ :=
  if c = [] ∧ r = [] then 1
  else if c = [] ∨ r = [] then 0
  else if 0 < (c.toFinset ∪ r.toFinset).card then
    ((c.toFinset ∩ r.toFinset).card : ℚ) / (((c.toFinset ∪ r.toFinset).card : ℚ))
  else 0

/-! ### `CodeBLEUEvaluator._calculate_python_ast_score`

`ast.parse` + `_extract_ast_nodes` are modelled by the `parse`
parameter: `parse code = some nodes` stands for a successful parse whose
walked node type names are `nodes`, and `parse code = none` stands for
`ast.parse` raising `SyntaxError`. -/
def calculate_python_ast_score (parse : String → Option (List String))
    (candidate_code : String) (reference_codes : List String) : ℚ :=
  match parse candidate_code with
  | none => 0
  | some candidate_nodes =>
    reference_codes.foldl
      (fun max_score ref_code =>
        match parse ref_code with
        | none => max_score
        | some ref_nodes => max max_score (setScore candidate_nodes ref_nodes))
      0

/-! ### Regex scanning

The structural and control-flow extractors use `re.findall` with a fixed
closed list of patterns built from: literals, the word boundary `\b`,
`\s*` / `\s+`, `\w+` (optionally a capture group), and `[^)]*`.  For
these patterns greedy maximal munch never needs backtracking (the atom
after each starred/plus class can never match a character of that
class), so `re.findall` is faithfully implemented by a left-to-right
scan that at each position attempts the atom sequence and on success
emits the match (or its single capture group) and resumes after it. -/

/-- ASCII approximation of the regex class `\w` (`[A-Za-z0-9_]`). -/
def isWordChar (c : Char) : Bool := c.isAlpha || c.isDigit || c = '_'

/-- The regex class `\s` (`[ \t\n\r\f\v]`). -/
def isSpaceChar (c : Char) : Bool :=
  c = ' ' || c = '\t' || c = '\n' || c = '\r' || c = '\x0b' || c = '\x0c'

/-- One pattern atom. -/
inductive PatAtom where
  | lit (s : List Char)
  | wb
  | ws0
  | ws1
  | word (capture : Bool)
  | notClose
deriving Repr

/-- Character comparison, case-insensitive when `ci` (the `re.IGNORECASE`
flag used by the control-flow patterns). -/
def charEqCI (ci : Bool) (patC inC : Char) : Bool :=
  if ci then patC.toLower = inC.toLower else patC = inC

/-- Match a literal; returns the consumed input characters (original
case) and the rest. -/
def matchLit (ci : Bool) : List Char → List Char → Option (List Char × List Char)
  | [], s => some ([], s)
  | l :: ls, c :: cs =>
    if charEqCI ci l c then
      match matchLit ci ls cs with
      | some (tk, rest) => some (c :: tk, rest)
      | none => none
    else none
  | _ :: _, [] => none

/-- Is the optional character a word character (`none` = string edge)? -/
def isWordOpt : Option Char → Bool
  | none => false
  | some c => isWordChar c

/-- The previous character after consuming `tk` (unchanged if `tk` is
empty). -/
def newPrev (prev : Option Char) (tk : List Char) : Option Char :=
  match tk.getLast? with
  | some c => some c
  | none => prev

/-- Match an atom sequence at the current position.  `prev` is the
character just before the position (for `\b`).  Returns the consumed
characters, the capture group's characters (if an atom captured), and
the rest of the input. -/
def matchAtoms (ci : Bool) :
    List PatAtom → Option Char → List Char → Option (List Char × Option (List Char) × List Char)
  | [], _, s => some ([], none, s)
  | .lit l :: as, prev, s =>
    match matchLit ci l s with
    | none => none
    | some (tk, rest) =>
      match matchAtoms ci as (newPrev prev tk) rest with
      | none => none
      | some (tk2, cap, rest2) => some (tk ++ tk2, cap, rest2)
  | .wb :: as, prev, s =>
    if isWordOpt prev ≠ isWordOpt s.head? then matchAtoms ci as prev s else none
  | .ws0 :: as, prev, s =>
    match matchAtoms ci as (newPrev prev (s.takeWhile isSpaceChar)) (s.dropWhile isSpaceChar) with
    | none => none
    | some (tk2, cap, rest2) => some (s.takeWhile isSpaceChar ++ tk2, cap, rest2)
  | .ws1 :: as, prev, s =>
    if (s.takeWhile isSpaceChar) = [] then none
    else
      match matchAtoms ci as (newPrev prev (s.takeWhile isSpaceChar)) (s.dropWhile isSpaceChar) with
      | none => none
      | some (tk2, cap, rest2) => some (s.takeWhile isSpaceChar ++ tk2, cap, rest2)
  | .word cap :: as, prev, s =>
    if (s.takeWhile isWordChar) = [] then none
    else
      match matchAtoms ci as (newPrev prev (s.takeWhile isWordChar)) (s.dropWhile isWordChar) with
      | none => none
      | some (tk2, oldCap, rest2) =>
        some (s.takeWhile isWordChar ++ tk2,
          (if cap then some (s.takeWhile isWordChar) else none).orElse (fun _ => oldCap), rest2)
  | .notClose :: as, prev, s =>
    match matchAtoms ci as (newPrev prev (s.takeWhile (fun c => c ≠ ')')))
        (s.dropWhile (fun c => c ≠ ')')) with
    | none => none
    | some (tk2, cap, rest2) => some (s.takeWhile (fun c => c ≠ ')') ++ tk2, cap, rest2)

/-- One compiled pattern: case-insensitivity flag, atoms, and whether it
has a capture group (`re.findall` returns the group instead of the whole
match when a group is present). -/
structure Pattern where
  ci : Bool
  atoms : List PatAtom
  hasGroup : Bool

/-- Left-to-right non-overlapping scan; fuel bounds the recursion (it is
initialised to the string length plus one and every step consumes at
least one character). -/
def findallAux (p : Pattern) : Nat → Option Char → List Char → List String
  | 0, _, _ => []
  | _ + 1, _, [] => []
  | fuel + 1, prev, c :: cs =>
    match matchAtoms p.ci p.atoms prev (c :: cs) with
    | some (tk, capt, rest) =>
      match tk.getLast? with
      | some lastC =>
        String.mk (if p.hasGroup then capt.getD [] else tk)
          :: findallAux p fuel (some lastC) rest
      | none => findallAux p fuel (some c) cs
    | none => findallAux p fuel (some c) cs

/-- Model of `re.findall(pattern, s)`. -/
def re_findall (p : Pattern) (s : String) : List String :=
  findallAux p (s.toList.length + 1) none s.toList

/-! ### `CodeBLEUEvaluator._extract_code_structures` -/

/-- The four JavaScript recipes, in source order:
`function\s+(\w+)`, `class\s+(\w+)`, `(\w+)\s*:\s*function`,
`const\s+(\w+)\s*=\s*\([^)]*\)\s*=>`. -/
def jsPatterns : List Pattern :=
  [⟨false, [.lit "function".toList, .ws1, .word true], true⟩,
   ⟨false, [.lit "class".toList, .ws1, .word true], true⟩,
   ⟨false, [.word true, .ws0, .lit ":".toList, .ws0, .lit "function".toList], true⟩,
   ⟨false, [.lit "const".toList, .ws1, .word true, .ws0, .lit "=".toList, .ws0,
            .lit "(".toList, .notClose, .lit ")".toList, .ws0, .lit "=>".toList], true⟩]

/-- The four Java recipes, in source order: `class\s+(\w+)`,
`interface\s+(\w+)`, `public\s+\w+\s+(\w+)\s*\(`,
`private\s+\w+\s+(\w+)\s*\(`. -/
def javaPatterns : List Pattern :=
  [⟨false, [.lit "class".toList, .ws1, .word true], true⟩,
   ⟨false, [.lit "interface".toList, .ws1, .word true], true⟩,
   ⟨false, [.lit "public".toList, .ws1, .word false, .ws1, .word true, .ws0,
            .lit "(".toList], true⟩,
   ⟨false, [.lit "private".toList, .ws1, .word false, .ws1, .word true, .ws0,
            .lit "(".toList], true⟩]

/-- Structure extraction: JavaScript and Java have regex recipe lists;
every other language leaves `structures` empty. -/
def extract_code_structures (code : String) (language : String) : List String :=
  if language = "javascript" then jsPatterns.flatMap (fun p => re_findall p code)
  else if language = "java" then javaPatterns.flatMap (fun p => re_findall p code)
  else []

/-! ### `CodeBLEUEvaluator._calculate_structural_similarity` -/

def calculate_structural_similarity (candidate : String) (references : List String)
    (language : String) : ℚ :=
  references.foldl
    (fun max_score ref =>
      max max_score
        (setScore (extract_code_structures candidate language)
          (extract_code_structures ref language)))
    0

/-! ### `CodeBLEUEvaluator.calculate_ast_matching_score` -/

def calculate_ast_matching_score (parse : String → Option (List String))
    (candidate_code : String) (reference_codes : List String) (language : String) : ℚ :=
  if language = "python" then
    calculate_python_ast_score parse candidate_code reference_codes
  else
    calculate_structural_similarity candidate_code reference_codes language

/-! ### `CodeBLEUEvaluator._extract_control_flow` and
`calculate_control_flow_score`

The thirteen language-agnostic control-flow patterns, applied with
`re.IGNORECASE`, in source order. -/
def cfPatterns : List Pattern :=
  [⟨true, [.wb, .lit "if".toList, .ws0, .lit "(".toList], false⟩,
   ⟨true, [.wb, .lit "else".toList, .wb], false⟩,
   ⟨true, [.wb, .lit "elif".toList, .ws0, .lit "(".toList], false⟩,
   ⟨true, [.wb, .lit "for".toList, .ws0, .lit "(".toList], false⟩,
   ⟨true, [.wb, .lit "while".toList, .ws0, .lit "(".toList], false⟩,
   ⟨true, [.wb, .lit "try".toList, .wb], false⟩,
   ⟨true, [.wb, .lit "catch".toList, .wb], false⟩,
   ⟨true, [.wb, .lit "finally".toList, .wb], false⟩,
   ⟨true, [.wb, .lit "switch".toList, .ws0, .lit "(".toList], false⟩,
   ⟨true, [.wb, .lit "case".toList, .ws1], false⟩,
   ⟨true, [.wb, .lit "break".toList, .wb], false⟩,
   ⟨true, [.wb, .lit "continue".toList, .wb], false⟩,
   ⟨true, [.wb, .lit "return".toList, .wb], false⟩]

/-- Model of `_extract_control_flow` — the `language` argument is accepted but
unused, exactly as in the source. -/
def extract_control_flow (code : String) (language : String) : List String :=
  cfPatterns.flatMap (fun p => re_findall p code)

def calculate_control_flow_score (candidate_code : String)
    (reference_codes : List String) (language : String) : ℚ :=
  reference_codes.foldl
    (fun max_score ref_code =>
      max max_score
        (setScore (extract_control_flow candidate_code language)
          (extract_control_flow ref_code language)))
    0

/-! ### `CodeBLEUEvaluator.tokenize_code` -/

/-- Model of `re.sub(r'#.*$', '', code, flags=re.MULTILINE)` (and likewise for
`//`): at each occurrence of the marker, drop everything up to (but not
including) the next newline.  Fuel = input length. -/
def stripLineComments (marker : List Char) : Nat → List Char → List Char
  | 0, s => s
  | fuel + 1, s =>
    match s with
    | [] => []
    | c :: cs =>
      if marker.isPrefixOf s then
        stripLineComments marker fuel (s.dropWhile (fun ch => ch ≠ '\n'))
      else c :: stripLineComments marker fuel cs

/-- Drop through the first `*/` (for the non-greedy `.*?` of
`/\*.*?\*/`); `none` when no `*/` occurs. -/
def dropThroughClose : Nat → List Char → Option (List Char)
  | 0, _ => none
  | _ + 1, [] => none
  | _ + 1, '*' :: '/' :: rest => some rest
  | fuel + 1, _ :: cs => dropThroughClose fuel cs

/-- Model of `re.sub(r'/\*.*?\*/', '', code, flags=re.DOTALL)`: each `/*` with a
later `*/` is removed together with the shortest span up to that `*/`;
an unterminated `/*` is left in place (the regex does not match). -/
def stripBlockComments : Nat → List Char → List Char
  | 0, s => s
  | _ + 1, [] => []
  | fuel + 1, '/' :: '*' :: cs =>
    match dropThroughClose cs.length cs with
    | some rest => stripBlockComments fuel rest
    | none => '/' :: stripBlockComments fuel ('*' :: cs)
  | fuel + 1, c :: cs => c :: stripBlockComments fuel cs

/-- Model of `re.findall(r'\b\w+\b|[^\w\s]', text)`: maximal word-character runs
become one token each, whitespace is skipped, and every other character
is a one-character token. -/
def lexTokens : Nat → List Char → List String
  | 0, _ => []
  | _ + 1, [] => []
  | fuel + 1, c :: cs =>
    if isWordChar c then
      String.mk ((c :: cs).takeWhile isWordChar)
        :: lexTokens fuel ((c :: cs).dropWhile isWordChar)
    else if isSpaceChar c then lexTokens fuel cs
    else String.mk [c] :: lexTokens fuel cs

/-- Python `str.strip()`. -/
def pyStrip (l : List Char) : List Char :=
  ((l.dropWhile isSpaceChar).reverse.dropWhile isSpaceChar).reverse

/-- Model of `tokenize_code`: strip comments per language family, lower-case,
lex, and keep tokens whose `strip()` is non-empty. -/
def tokenize_code (code : String) (language : String) : List String :=
  let chars := code.toList
  let stripped :=
    if language = "python" then stripLineComments ['#'] chars.length chars
    else if language = "javascript" ∨ language = "java" then
      stripBlockComments (stripLineComments ['/', '/'] chars.length chars).length
        (stripLineComments ['/', '/'] chars.length chars)
    else chars
  (lexTokens (stripped.map Char.toLower).length (stripped.map Char.toLower)).filter
    (fun token => pyStrip token.toList ≠ [])

/-! ### `CodeBLEUEvaluator.detect_language`

The source computes `code_lower = code.lower()` but tests the indicator
substrings against the original `code`; the model does the same. -/
/-- Substring containment test for Python's `indicator in code`. -/
def containsSubAux (needle : List Char) : Nat → List Char → Bool
  | 0, hay => needle.isPrefixOf hay
  | fuel + 1, hay =>
    needle.isPrefixOf hay ||
      match hay with
      | [] => false
      | _ :: cs => containsSubAux needle fuel cs

def containsSub (needle hay : String) : Bool :=
  containsSubAux needle.toList hay.toList.length hay.toList

def detect_language (code : String) : String :=
  if ["def ", "import ", "from ", "__init__", "self."].any
      (fun indicator => containsSub indicator code) then "python"
  else if ["function ", "var ", "let ", "const ", "=>"].any
      (fun indicator => containsSub indicator code) then "javascript"
  else if ["public class", "private ", "public static void"].any
      (fun indicator => containsSub indicator code) then "java"
  else "python"

/-! ### `CodeBLEUEvaluator.__init__` -/

/-- Model of `math.isclose(x, y, rel_tol=relTol, abs_tol=absTol)` =
`|x - y| <= max(relTol * max(|x|, |y|), absTol)`. -/
def math_isclose (x y relTol absTol : ℚ) : Bool :=
  decide (|x - y| ≤ max (relTol * max |x| |y|) absTol)

/-- The evaluator instance: just its immutable weight vector (the
keyword table is a module-level constant in this model). -/
structure Evaluator where
  alpha : ℚ
  beta : ℚ
  gamma : ℚ
  delta : ℚ
deriving Repr, DecidableEq

/-- Model of `CodeBLEUEvaluator.__init__`: raises `ValueError("Weights must sum
to 1.0")` unless `math.isclose(alpha+beta+gamma+delta, 1.0,
rel_tol=1e-9)`; on success the weights are stored exactly as given. -/
def mkEvaluator (alpha beta gamma delta : ℚ) : Except String Evaluator :=
  if math_isclose (alpha + beta + gamma + delta) 1 (1 / 1000000000) 0 then
    Except.ok ⟨alpha, beta, gamma, delta⟩
  else Except.error "Weights must sum to 1.0"

/-! ### `CodeBLEUEvaluator.evaluate` -/

/-- The result dictionary of `evaluate` (weights flattened). -/
structure EvaluationResult where
  codebleu : ℝ
  bleu : ℝ
  weighted_bleu : ℝ
  ast_match : ℝ
  control_flow : ℝ
  language : String
  alpha : ℚ
  beta : ℚ
  gamma : ℚ
  delta : ℚ

/-- Model of `evaluate`: resolves the language (auto-detected when absent),
tokenizes candidate and references, computes the four sub-scores and
the convex combination.  A single reference string is normalized to a
one-element list by the source before this point, so references are a
list here. -/
noncomputable def evaluate (E : Evaluator) (parse : String → Option (List String))
    (candidate_code : String) (reference_codes : List String)
    (language : Option String) : EvaluationResult :=
  let lang := language.getD (detect_language candidate_code)
  let candidate_tokens := tokenize_code candidate_code lang
  let reference_tokens_list := reference_codes.map (fun ref => tokenize_code ref lang)
  let bleu_score := calculate_bleu_score candidate_tokens reference_tokens_list 4
  let weighted_bleu_score :=
    calculate_weighted_bleu_score candidate_tokens reference_tokens_list lang
  let ast_score := calculate_ast_matching_score parse candidate_code reference_codes lang
  let cf_score := calculate_control_flow_score candidate_code reference_codes lang
  { codebleu := (E.alpha : ℝ) * bleu_score + (E.beta : ℝ) * weighted_bleu_score
      + (E.gamma : ℝ) * (ast_score : ℝ) + (E.delta : ℝ) * (cf_score : ℝ)
    bleu := bleu_score
    weighted_bleu := weighted_bleu_score
    ast_match := (ast_score : ℝ)
    control_flow := (cf_score : ℝ)
    language := lang
    alpha := E.alpha
    beta := E.beta
    gamma := E.gamma
    delta := E.delta }

/-! ### `CodeBLEUDatasetEvaluator.evaluate_dataset`

The per-pair call `self.evaluator.evaluate(generated, reference)` sits
inside `try/except`; in this model the scorer is a parameter returning
`Option`: `none` stands for an exception caught by the `except` branch
(which logs and `continue`s), `some` for a successful score record. -/

/-- The five metric values of one successful evaluation. -/
structure Scores where
  codebleu : ℝ
  bleu : ℝ
  weighted_bleu : ℝ
  ast_match : ℝ
  control_flow : ℝ

/-- Python `max(values)` / `min(values)` on a non-empty list (they raise
on an empty list; only called with non-empty `values`). -/
def listMax : List ℝ → ℝ
  | [] => 0
  | x :: xs => xs.foldl max x

def listMin : List ℝ → ℝ
  | [] => 0
  | x :: xs => xs.foldl min x

/-- Per-metric aggregate `{mean, max, min, std}`. -/
structure MetricStats where
  mean : ℝ
  max : ℝ
  min : ℝ
  std : ℝ

/-- The aggregation body: `mean = sum/len`, `std = (sum((x -
sum/len)**2) / len) ** 0.5` — the population formula, with the mean
recomputed inline exactly as in the source.  `** 0.5` on the
non-negative operand is square root. -/
noncomputable def aggregateStats (values : List ℝ) : MetricStats :=
  { mean := values.sum / (values.length : ℝ)
    max := listMax values
    min := listMin values
    std := Real.sqrt
      ((values.map (fun x => (x - values.sum / (values.length : ℝ)) ^ 2)).sum
        / (values.length : ℝ)) }

/-- The aggregated dictionary (five metric blocks plus `total_pairs`;
the `evaluation_time` timestamp is I/O and omitted). -/
structure DatasetSummary where
  codebleu : MetricStats
  bleu : MetricStats
  weighted_bleu : MetricStats
  ast_match : MetricStats
  control_flow : MetricStats
  total_pairs : Nat

/-- Model of `evaluate_dataset`: returns the empty dictionary (`none`) for an
empty dataset and when no pair evaluates successfully; otherwise the
successful scores, in order (`filterMap` = the `try/except/continue`
loop), are aggregated per metric, and `total_pairs =
len(individual_scores)`.  The source's local `individual_scores` is
written out inline. -/
noncomputable def evaluate_dataset (score : String → String → Option Scores)
    (dataset : List (String × String)) : Option DatasetSummary :=
  if dataset = [] then none
  else if (dataset.filterMap (fun p => score p.1 p.2)).isEmpty then none
  else
    some
      { codebleu := aggregateStats
          ((dataset.filterMap (fun p => score p.1 p.2)).map (fun s => s.codebleu))
        bleu := aggregateStats
          ((dataset.filterMap (fun p => score p.1 p.2)).map (fun s => s.bleu))
        weighted_bleu := aggregateStats
          ((dataset.filterMap (fun p => score p.1 p.2)).map (fun s => s.weighted_bleu))
        ast_match := aggregateStats
          ((dataset.filterMap (fun p => score p.1 p.2)).map (fun s => s.ast_match))
        control_flow := aggregateStats
          ((dataset.filterMap (fun p => score p.1 p.2)).map (fun s => s.control_flow))
        total_pairs := (dataset.filterMap (fun p => score p.1 p.2)).length }

/-! ## Helper lemmas -/

lemma weight_tokens_nil (tokens : List String) : weight_tokens [] tokens = tokens := by
  unfold weight_tokens
  simp

lemma setScore_self (s : List String) : setScore s s = 1 := by
  by_cases h : s = []
  · simp [setScore, h]
  · have hcard : 0 < s.toFinset.card := by
      obtain ⟨a, ha⟩ := List.exists_mem_of_ne_nil s h
      exact Finset.card_pos.mpr ⟨a, List.mem_toFinset.mpr ha⟩
    unfold setScore
    rw [if_neg (by simp [h]), if_neg (by simp [h])]
    rw [Finset.inter_self, Finset.union_self, if_pos hcard]
    exact div_self (ne_of_gt (by exact_mod_cast hcard))

lemma setScore_le_one (c r : List String) : setScore c r ≤ 1 := by
  unfold setScore
  split
  · exact le_refl 1
  · split
    · exact zero_le_one
    · split
      · rename_i htotal
        rw [div_le_one (by exact_mod_cast htotal)]
        exact_mod_cast Finset.card_le_card
          (Finset.Subset.trans Finset.inter_subset_left Finset.subset_union_left)
      · exact zero_le_one

lemma length_filterMap_of_isSome {α β : Type} (f : α → Option β) (l : List α)
    (h : ∀ a ∈ l, (f a).isSome = true) : (l.filterMap f).length = l.length := by
  induction l with
  | nil => rfl
  | cons a l ih =>
    rcases hfa : f a with _ | b
    · exact absurd (h a (List.mem_cons_self a l)) (by simp [hfa])
    · simp [List.filterMap_cons, hfa,
        ih (fun x hx => h x (List.mem_cons_of_mem a hx))]

lemma foldl_max_acc_le {β : Type} (g : β → ℚ) (l : List β) (m : ℚ) :
    m ≤ l.foldl (fun acc b => max acc (g b)) m := by
  induction l generalizing m with
  | nil => exact le_refl m
  | cons b bs ih => exact le_trans (le_max_left m (g b)) (ih _)

lemma foldl_max_le {β : Type} (g : β → ℚ) (l : List β) (m : ℚ) (hm : m ≤ 1)
    (hg : ∀ b ∈ l, g b ≤ 1) : l.foldl (fun acc b => max acc (g b)) m ≤ 1 := by
  induction l generalizing m with
  | nil => exact hm
  | cons b bs ih =>
    exact ih _ (max_le hm (hg b (by simp))) (fun x hx => hg x (by simp [hx]))

lemma foldl_max_mem {β : Type} (g : β → ℚ) (l : List β) (a : β) (ha : a ∈ l) (m : ℚ) :
    g a ≤ l.foldl (fun acc b => max acc (g b)) m := by
  induction l generalizing m with
  | nil => cases ha
  | cons b bs ih =>
    rcases List.mem_cons.mp ha with h | h
    · subst h
      exact le_trans (le_max_right m (g a)) (foldl_max_acc_le g bs _)
    · exact ih h _

end CodeBLEU

namespace CodeBLEU

/-! ## Claim theorems -/

lemma get_ngrams_length (tokens : List String) (n : Nat) :
    (get_ngrams tokens n).length = tokens.length + 1 - n := by
  unfold get_ngrams
  simp

lemma get_ngrams_ne_nil (x : List String) (n : Nat) (h : n ≤ x.length) :
    get_ngrams x n ≠ [] := by
  intro e
  have hl := get_ngrams_length x n
  rw [e] at hl
  simp at hl
  omega

lemma maxRefCount_single (cg : List (List String)) (g : List String) :
    maxRefCount [cg] g = cg.count g := by
  unfold maxRefCount
  simp

lemma count_instBEq_eq (g : List String) (l : List (List String)) :
    @List.count (List String) List.instBEq g l
      = @List.count (List String) instBEqOfDecidableEq g l := by
  induction l with
  | nil => rfl
  | cons a l ih => simp [List.count_cons, ih]

lemma clippedCorrect_self (cg : List (List String)) :
    clippedCorrect cg [cg] = cg.length := by
  unfold clippedCorrect
  have h1 : ∀ g : List String, min (cg.count g) (maxRefCount [cg] g) = cg.count g := by
    intro g
    rw [maxRefCount_single]
    exact min_self _
  simp only [h1]
  simp only [count_instBEq_eq]
  exact List.sum_map_count_dedup_eq_length cg

lemma orderPrecision_self (x : List String) (n : Nat) (h : n ≤ x.length) :
    orderPrecision x [x] n = 1 := by
  have hne := get_ngrams_ne_nil x n h
  unfold orderPrecision
  rw [if_neg hne, if_pos (List.length_pos.mpr hne)]
  rw [show ([x].map (fun r => get_ngrams r n)) = [get_ngrams x n] from rfl]
  rw [clippedCorrect_self]
  exact div_self (Nat.cast_ne_zero.mpr (List.length_pos.mpr hne).ne')

lemma bleuPrecisions_self (x : List String) (h : 4 ≤ x.length) :
    bleuPrecisions x [x] 4 = [1, 1, 1, 1] := by
  unfold bleuPrecisions
  rw [show List.range' 1 4 = [1, 2, 3, 4] from rfl]
  simp only [List.map_cons, List.map_nil]
  rw [orderPrecision_self x 1 (by omega), orderPrecision_self x 2 (by omega),
    orderPrecision_self x 3 (by omega), orderPrecision_self x 4 h]

lemma ast_foldl_acc_le (parse : String → Option (List String)) (cn : List String)
    (l : List String) (m : ℚ) :
    m ≤ l.foldl
      (fun acc ref => match parse ref with
        | none => acc
        | some rn => max acc (setScore cn rn)) m := by
  induction l generalizing m with
  | nil => exact le_refl m
  | cons b bs ih =>
    refine le_trans ?_ (ih _)
    rcases hpb : parse b with _ | rn <;> simp [hpb]

lemma ast_foldl_le_one (parse : String → Option (List String)) (cn : List String)
    (l : List String) (m : ℚ) (hm : m ≤ 1) :
    l.foldl
      (fun acc ref => match parse ref with
        | none => acc
        | some rn => max acc (setScore cn rn)) m ≤ 1 := by
  induction l generalizing m with
  | nil => exact hm
  | cons b bs ih =>
    apply ih
    rcases hpb : parse b with _ | rn
    · simpa [hpb]
    · simpa [hpb] using max_le hm (setScore_le_one cn rn)

lemma ast_foldl_attains (parse : String → Option (List String)) (cn : List String)
    (l : List String) (a : String) (ha : a ∈ l) (rn : List String)
    (hp : parse a = some rn) (m : ℚ) :
    setScore cn rn ≤ l.foldl
      (fun acc ref => match parse ref with
        | none => acc
        | some rn1 => max acc (setScore cn rn1)) m := by
  induction l generalizing m with
  | nil => cases ha
  | cons b bs ih =>
    rcases List.mem_cons.mp ha with h | h
    · subst h
      refine le_trans ?_ (ast_foldl_acc_le parse cn bs _)
      simp [hp, le_max_right]
    · exact ih h _

/-- C1: for every evaluator instance, parse oracle, candidate string,
reference list and optional language, the `codebleu` field of the result
of `evaluate` equals `alpha * bleu + beta * weighted_bleu + gamma *
ast_match + delta * control_flow`, computed from the instance's weight
vector and the four sub-scores carried in the same result. -/
theorem C1_composite_convex (E : Evaluator) (parse : String → Option (List String))
    (candidate_code : String) (reference_codes : List String) (language : Option String) :
    (evaluate E parse candidate_code reference_codes language).codebleu
      = (E.alpha : ℝ) * (evaluate E parse candidate_code reference_codes language).bleu
      + (E.beta : ℝ) * (evaluate E parse candidate_code reference_codes language).weighted_bleu
      + (E.gamma : ℝ) * (evaluate E parse candidate_code reference_codes language).ast_match
      + (E.delta : ℝ) * (evaluate E parse candidate_code reference_codes language).control_flow :=
  rfl

/-- C3: constructing the evaluator fails with `ValueError("Weights must
sum to 1.0")` exactly when `math.isclose(alpha+beta+gamma+delta, 1.0,
rel_tol=1e-9)` is false, and on success the stored weights are exactly
the given ones — never silently corrected.  The check lives only in
`mkEvaluator` (`__init__`); `evaluate` is defined for every `Evaluator`
record and performs no such check. -/
theorem C3_weights_checked_at_construction (alpha beta gamma delta : ℚ) :
    (math_isclose (alpha + beta + gamma + delta) 1 (1 / 1000000000) 0 = false →
      mkEvaluator alpha beta gamma delta = Except.error "Weights must sum to 1.0") ∧
    (math_isclose (alpha + beta + gamma + delta) 1 (1 / 1000000000) 0 = true →
      mkEvaluator alpha beta gamma delta = Except.ok ⟨alpha, beta, gamma, delta⟩) := by
  constructor <;> intro h <;> unfold mkEvaluator <;> rw [h] <;> rfl

/-- C3 witness: the weight vector 0.3/0.3/0.3/0.3 is rejected, and the
default 0.25/0.25/0.25/0.25 is accepted unchanged. -/
theorem C3_witness :
    mkEvaluator (3 / 10) (3 / 10) (3 / 10) (3 / 10)
        = Except.error "Weights must sum to 1.0" ∧
      mkEvaluator (1 / 4) (1 / 4) (1 / 4) (1 / 4)
        = Except.ok ⟨1 / 4, 1 / 4, 1 / 4, 1 / 4⟩ :=
  ⟨(C3_weights_checked_at_construction (3 / 10) (3 / 10) (3 / 10) (3 / 10)).1
      (by
        simp only [math_isclose, decide_eq_false_iff_not]
        norm_num [abs_of_nonneg, abs_of_pos, max_def]),
   (C3_weights_checked_at_construction (1 / 4) (1 / 4) (1 / 4) (1 / 4)).2
      (by simp only [math_isclose, decide_eq_true_eq]; norm_num)⟩

/-- C5: `calculate_bleu_score` returns `0.0` immediately (and in
particular cannot divide by zero) whenever the candidate token sequence
is empty or the reference list is empty. -/
theorem C5_bleu_empty_inputs (candidate : List String) (references : List (List String))
    (maxN : Nat) (h : candidate = [] ∨ references = []) :
    calculate_bleu_score candidate references maxN = 0 := by
  unfold calculate_bleu_score
  rw [if_pos h]

/-- C5 witness: a non-empty candidate against an empty reference list,
and an empty candidate, both score `0.0`. -/
theorem C5_witness :
    calculate_bleu_score ["a"] [] 4 = 0 ∧ calculate_bleu_score [] [["x"]] 4 = 0 :=
  ⟨C5_bleu_empty_inputs ["a"] [] 4 (Or.inr rfl),
   C5_bleu_empty_inputs [] [["x"]] 4 (Or.inl rfl)⟩

/-- C6: when the keyword set of the language is empty — in particular
for every language outside the keyword table — the weighted BLEU score
equals the plain BLEU score on the untransformed sequences. -/
theorem C6_weighted_eq_plain_when_no_keywords (candidate : List String)
    (references : List (List String)) (language : String)
    (h : keywords language = []) :
    calculate_weighted_bleu_score candidate references language
      = calculate_bleu_score candidate references 4 := by
  unfold calculate_weighted_bleu_score
  rw [h, weight_tokens_nil]
  have : references.map (fun ref => weight_tokens [] ref) = references := by
    simp [weight_tokens_nil]
  rw [this]

/-- C6 witness: the language `"ruby"` is outside the keyword table, so
its keyword set is empty and weighted BLEU coincides with plain BLEU. -/
theorem C6_witness :
    keywords "ruby" = [] ∧
      calculate_weighted_bleu_score ["def", "f"] [["def", "f"]] "ruby"
        = calculate_bleu_score ["def", "f"] [["def", "f"]] 4 :=
  ⟨rfl, C6_weighted_eq_plain_when_no_keywords ["def", "f"] [["def", "f"]] "ruby" rfl⟩

/-- C7: in Python-parser mode, a parse failure of the candidate yields
an immediate structural score of `0.0` (no exception is modelled: the
function is total), while a parse failure of one reference only skips
that reference: the score over a list containing the unparsable
reference equals the score over the list with it removed, i.e. the
maximum Jaccard ratio over the remaining references. -/
theorem C7_parse_failure_handling (parse : String → Option (List String))
    (candidate_code : String) (reference_codes refs1 refs2 : List String) (bad : String) :
    (parse candidate_code = none →
      calculate_python_ast_score parse candidate_code reference_codes = 0) ∧
    (parse bad = none →
      calculate_python_ast_score parse candidate_code (refs1 ++ bad :: refs2)
        = calculate_python_ast_score parse candidate_code (refs1 ++ refs2)) := by
  constructor
  · intro h
    unfold calculate_python_ast_score
    rw [h]
  · intro h
    unfold calculate_python_ast_score
    cases hc : parse candidate_code with
    | none => rfl
    | some cn =>
      dsimp only
      rw [List.foldl_append, List.foldl_append, List.foldl_cons]
      simp [h]

/-- C7 witness: with a parse oracle that parses only `"good"`, an
unparsable candidate scores `0.0` against a parsable reference, and an
unparsable reference in the middle of the list is skipped without
changing the result. -/
theorem C7_witness :
    calculate_python_ast_score
        (fun s => if s = "good" then some ["Module"] else none) "def (" ["good"] = 0 ∧
      calculate_python_ast_score
          (fun s => if s = "good" then some ["Module"] else none) "good" ["oops", "good"]
        = calculate_python_ast_score
            (fun s => if s = "good" then some ["Module"] else none) "good" ["good"] :=
  ⟨(C7_parse_failure_handling (fun s => if s = "good" then some ["Module"] else none)
      "def (" ["good"] [] [] "x").1 (by simp),
   (C7_parse_failure_handling (fun s => if s = "good" then some ["Module"] else none)
      "good" [] [] ["good"] "oops").2 (by simp)⟩

/-- C10: for every language tag outside python/javascript/java the
structure extractor returns the empty signature on every input, and the
fallback structural similarity is therefore `1.0` against any non-empty
reference list (the empty/empty rule applies to every reference),
regardless of code content. -/
theorem C10_unknown_language_structures (language : String)
    (h : language ∉ ["python", "javascript", "java"]) :
    (∀ code, extract_code_structures code language = []) ∧
    (∀ candidate references, references ≠ [] →
      calculate_structural_similarity candidate references language = 1) := by
  have hjs : language ≠ "javascript" := by intro e; simp [e] at h
  have hjava : language ≠ "java" := by intro e; simp [e] at h
  have hext : ∀ code, extract_code_structures code language = [] := by
    intro code
    unfold extract_code_structures
    rw [if_neg hjs, if_neg hjava]
  refine ⟨hext, ?_⟩
  intro candidate references hne
  unfold calculate_structural_similarity
  obtain ⟨r, hr⟩ := List.exists_mem_of_ne_nil references hne
  apply le_antisymm
  · exact foldl_max_le _ _ _ zero_le_one (fun b _ => setScore_le_one _ _)
  · have h1 : setScore (extract_code_structures candidate language)
        (extract_code_structures r language) = 1 := by
      rw [hext, hext]
      exact setScore_self []
    calc (1 : ℚ) = setScore (extract_code_structures candidate language)
          (extract_code_structures r language) := h1.symm
      _ ≤ _ := foldl_max_mem
          (fun ref => setScore (extract_code_structures candidate language)
            (extract_code_structures ref language)) references r hr 0

/-- C10 witness: `"ruby"` is outside the dispatch; its extractor returns
the empty signature even for code full of structures, and the fallback
structural score is `1.0` for arbitrary unrelated snippets. -/
theorem C10_witness :
    ("ruby" : String) ∉ ["python", "javascript", "java"] ∧
      extract_code_structures "class Foo { int x; }" "ruby" = [] ∧
      calculate_structural_similarity "function a() {}" ["int b;"] "ruby" = 1 :=
  ⟨by decide,
   (C10_unknown_language_structures "ruby" (by decide)).1 "class Foo { int x; }",
   (C10_unknown_language_structures "ruby" (by decide)).2 "function a() {}" ["int b;"]
     (by decide)⟩

/-- C4 counterexample: the claim quantifies over every candidate
string, but in Python-parser mode an unparsable candidate scores `0.0`
even against a byte-for-byte identical reference.  `"def ("` is a
Python syntax error (CPython's `ast.parse` raises `SyntaxError` on it),
modelled by a parse oracle returning `none`; the structural score of
the identical pair is `0`, not `1`. -/
theorem C4_counterexample :
    ("def (" : String) ∈ ["def ("] ∧
      calculate_python_ast_score (fun _ => none) "def (" ["def ("] = 0 ∧
      (0 : ℚ) ≠ 1 :=
  ⟨List.mem_singleton.mpr rfl, rfl, by norm_num⟩

/-- C4 (amended): if the candidate occurs byte-for-byte in the
reference list then the control-flow score is `1.0`, and the structural
(Python AST) score is `1.0` provided the candidate parses successfully;
and when the two extracted signatures are both empty the score is
`1.0` (stated for a single reference). -/
theorem C4_identical_inputs_score_one (parse : String → Option (List String))
    (candidate_code r : String) (reference_codes : List String) (language : String) :
    (candidate_code ∈ reference_codes →
      calculate_control_flow_score candidate_code reference_codes language = 1) ∧
    (candidate_code ∈ reference_codes → ∀ cn, parse candidate_code = some cn →
      calculate_python_ast_score parse candidate_code reference_codes = 1) ∧
    (extract_control_flow candidate_code language = [] →
      extract_control_flow r language = [] →
      calculate_control_flow_score candidate_code [r] language = 1) ∧
    (parse candidate_code = some [] → parse r = some [] →
      calculate_python_ast_score parse candidate_code [r] = 1) := by
  refine ⟨?_, ?_, ?_, ?_⟩
  · intro hmem
    unfold calculate_control_flow_score
    apply le_antisymm
    · exact foldl_max_le _ _ _ zero_le_one (fun b _ => setScore_le_one _ _)
    · calc (1 : ℚ) = setScore (extract_control_flow candidate_code language)
            (extract_control_flow candidate_code language) := (setScore_self _).symm
        _ ≤ _ := foldl_max_mem
            (fun ref_code => setScore (extract_control_flow candidate_code language)
              (extract_control_flow ref_code language)) reference_codes candidate_code hmem 0
  · intro hmem cn hp
    unfold calculate_python_ast_score
    rw [hp]
    apply le_antisymm
    · exact ast_foldl_le_one parse cn reference_codes 0 zero_le_one
    · calc (1 : ℚ) = setScore cn cn := (setScore_self cn).symm
        _ ≤ _ := ast_foldl_attains parse cn reference_codes candidate_code hmem cn hp 0
  · intro hc hr
    unfold calculate_control_flow_score
    rw [List.foldl_cons, List.foldl_nil, hc, hr]
    rw [setScore_self []]
    exact max_eq_right zero_le_one
  · intro hc hr
    unfold calculate_python_ast_score
    rw [hc]
    dsimp only
    rw [List.foldl_cons, List.foldl_nil, hr]
    dsimp only
    rw [setScore_self []]
    exact max_eq_right zero_le_one

/-- C4 witness: a snippet identical to its reference has control-flow
score `1.0`; a parsable identical pair has AST score `1.0`; a pair of
snippets with no control-flow constructs (both signatures empty) scores
`1.0`; a pair both parsing to empty node lists scores `1.0`. -/
theorem C4_witness :
    calculate_control_flow_score "if (x) return y;" ["if (x) return y;"] "javascript" = 1 ∧
      calculate_python_ast_score
        (fun s => if s = "x = 1" then some ["Module", "Assign"] else none)
        "x = 1" ["x = 1"] = 1 ∧
      calculate_control_flow_score "a = 1" ["b = 2"] "python" = 1 ∧
      calculate_python_ast_score (fun _ => some []) "" [""] = 1 :=
  ⟨(C4_identical_inputs_score_one (fun _ => none) "if (x) return y;" ""
      ["if (x) return y;"] "javascript").1 (List.mem_singleton.mpr rfl),
   (C4_identical_inputs_score_one
      (fun s => if s = "x = 1" then some ["Module", "Assign"] else none)
      "x = 1" "" ["x = 1"] "python").2.1 (List.mem_singleton.mpr rfl)
      ["Module", "Assign"] (by simp),
   (C4_identical_inputs_score_one (fun _ => none) "a = 1" "b = 2" [] "python").2.2.1
      (by decide) (by decide),
   (C4_identical_inputs_score_one (fun _ => some []) "" "" [] "python").2.2.2 rfl rfl⟩

/-- C8: when evaluating one pair throws (modelled as the scorer
returning `none`) while every other pair succeeds, `evaluate_dataset`
skips the failing pair: the summary is exactly the summary of the
dataset without that pair, its statistics range over the `N - 1`
successful results only, and `total_pairs = N - 1`.  The batch is never
aborted: a summary is still produced. -/
theorem C8_failed_pair_excluded (score : String → String → Option Scores)
    (pre post : List (String × String)) (bad : String × String)
    (hbad : score bad.1 bad.2 = none)
    (hok : ∀ p ∈ pre ++ post, (score p.1 p.2).isSome = true)
    (hne : pre ++ post ≠ []) :
    evaluate_dataset score (pre ++ bad :: post) = evaluate_dataset score (pre ++ post) ∧
      ∃ s, evaluate_dataset score (pre ++ bad :: post) = some s ∧
        s.total_pairs = (pre ++ bad :: post).length - 1 := by
  have hfm : (pre ++ bad :: post).filterMap (fun p => score p.1 p.2)
      = (pre ++ post).filterMap (fun p => score p.1 p.2) := by
    simp [List.filterMap_append, List.filterMap_cons, hbad]
  have hlen : ((pre ++ post).filterMap (fun p => score p.1 p.2)).length
      = (pre ++ post).length :=
    length_filterMap_of_isSome (fun p => score p.1 p.2) (pre ++ post) hok
  have hfne : (pre ++ post).filterMap (fun p => score p.1 p.2) ≠ [] := by
    intro e
    rw [e] at hlen
    exact hne (List.eq_nil_of_length_eq_zero hlen.symm)
  have hempty : ((pre ++ post).filterMap (fun p => score p.1 p.2)).isEmpty = false := by
    rwa [List.isEmpty_eq_false]
  have hne1 : pre ++ bad :: post ≠ [] := by simp
  constructor
  · unfold evaluate_dataset
    rw [if_neg hne1, if_neg hne, hfm]
  · unfold evaluate_dataset
    rw [if_neg hne1, hfm, hempty]
    refine ⟨_, rfl, ?_⟩
    show ((pre ++ post).filterMap (fun p => score p.1 p.2)).length
      = (pre ++ bad :: post).length - 1
    rw [hlen]
    simp

/-- C8 witness: a three-pair dataset whose middle pair fails yields the
same summary as the two-pair dataset without it, with
`total_pairs = 2 = 3 - 1`. -/
theorem C8_witness :
    evaluate_dataset
        (fun c _ => if c = "bad" then none else some ⟨1, 1, 1, 1, 1⟩)
        [("a", "a"), ("bad", "z"), ("b", "b")]
      = evaluate_dataset
          (fun c _ => if c = "bad" then none else some ⟨1, 1, 1, 1, 1⟩)
          [("a", "a"), ("b", "b")] ∧
      ∃ s, evaluate_dataset
            (fun c _ => if c = "bad" then none else some ⟨1, 1, 1, 1, 1⟩)
            [("a", "a"), ("bad", "z"), ("b", "b")] = some s ∧
          s.total_pairs = 2 :=
  C8_failed_pair_excluded (fun c _ => if c = "bad" then none else some ⟨1, 1, 1, 1, 1⟩)
    [("a", "a")] [("b", "b")] ("bad", "z") (by simp)
    (by intro p hp; fin_cases hp <;> simp) (by simp)

/-- C9: the per-metric standard deviation of `evaluate_dataset` is the
population formula (divide by the count): three all-ones results give
std exactly `0` for every metric, and a two-pair dataset with codebleu
values `0` and `1` gives std `1/2` — the Bessel-corrected sample
formula would give `√(1/2)` instead. -/
theorem C9_population_std :
    (∃ s, evaluate_dataset (fun _ _ => some ⟨1, 1, 1, 1, 1⟩)
          [("a", "a"), ("b", "b"), ("c", "c")] = some s ∧
        s.codebleu.std = 0 ∧ s.bleu.std = 0 ∧ s.weighted_bleu.std = 0 ∧
        s.ast_match.std = 0 ∧ s.control_flow.std = 0) ∧
    (∃ s, evaluate_dataset
          (fun c _ => if c = "a0" then some ⟨0, 0, 0, 0, 0⟩ else some ⟨1, 1, 1, 1, 1⟩)
          [("a0", "x"), ("b1", "y")] = some s ∧
        s.codebleu.std = 1 / 2) := by
  constructor
  · refine ⟨_, rfl, ?_, ?_, ?_, ?_, ?_⟩ <;>
    · show Real.sqrt _ = 0
      rw [Real.sqrt_eq_zero']
      norm_num [List.filterMap_cons, Function.comp]
  · refine ⟨_, rfl, ?_⟩
    show Real.sqrt ((((0 : ℝ) - (0 + (1 + 0)) / 2) ^ 2 + (((1 : ℝ) - (0 + (1 + 0)) / 2) ^ 2 + 0)) / 2) = 1 / 2
    rw [show ((((0 : ℝ) - (0 + (1 + 0)) / 2) ^ 2 + (((1 : ℝ) - (0 + (1 + 0)) / 2) ^ 2 + 0)) / 2) = (1 / 2 : ℝ) ^ 2 by norm_num]
    exact Real.sqrt_sq (by norm_num)

/-- C2 counterexample: the claim quantifies over every token sequence,
but for the one-token candidate `["a"]` against itself the order-2, -3
and -4 precisions are `0` (there are no such n-grams), so the any-zero
rule makes `calculate_bleu_score` return `0.0`, not `1.0`. -/
theorem C2_counterexample :
    calculate_bleu_score ["a"] [["a"]] 4 = 0 ∧
      calculate_bleu_score ["a"] [["a"]] 4 ≠ 1 := by
  have hlist : bleuPrecisions ["a"] [["a"]] 4 = [1, 0, 0, 0] := by
    unfold bleuPrecisions
    rw [show List.range' 1 4 = [1, 2, 3, 4] from rfl]
    simp only [List.map_cons, List.map_nil]
    rw [orderPrecision_self ["a"] 1 (by simp)]
    rw [show orderPrecision ["a"] [["a"]] 2 = 0 from rfl]
    rw [show orderPrecision ["a"] [["a"]] 3 = 0 from rfl]
    rw [show orderPrecision ["a"] [["a"]] 4 = 0 from rfl]
  have h0 : calculate_bleu_score ["a"] [["a"]] 4 = 0 := by
    unfold calculate_bleu_score
    rw [if_neg (by simp)]
    rw [if_pos (show (0 : ℚ) ∈ bleuPrecisions ["a"] [["a"]] 4 by rw [hlist]; simp)]
  exact ⟨h0, by rw [h0]; norm_num⟩

/-- C2 (amended): for every token sequence of length at least
`max_n = 4`, a candidate identical to its only reference scores exactly
`1.0`: every order's precision is `1`, the brevity penalty is
`exp 0 = 1`, and the geometric mean of all-ones is `1`. -/
theorem C2_self_match_bleu (x : List String) (h : 4 ≤ x.length) :
    calculate_bleu_score x [x] 4 = 1 := by
  have hx : x ≠ [] := by
    intro e
    rw [e] at h
    simp at h
  have hps := bleuPrecisions_self x h
  unfold calculate_bleu_score
  rw [if_neg (by simp [hx]), hps]
  rw [if_neg (by norm_num : ¬(0 : ℚ) ∈ ([1, 1, 1, 1] : List ℚ))]
  have hbp : brevityPenalty x [x] = 1 := by
    unfold brevityPenalty closestRef
    simp only [List.foldl_nil]
    rw [if_neg (lt_irrefl x.length)]
    rw [if_pos (by omega : 0 < x.length)]
    rw [div_self (Nat.cast_ne_zero.mpr (by omega : x.length ≠ 0) : (x.length : ℝ) ≠ 0)]
    norm_num [Real.exp_zero]
  rw [hbp]
  simp [Real.log_one, Real.exp_zero]

/-- C2 witness: the four-token sequence `["a", "b", "c", "d"]` meets the
length bound and scores `1.0` against itself. -/
theorem C2_witness :
    4 ≤ (["a", "b", "c", "d"] : List String).length ∧
      calculate_bleu_score ["a", "b", "c", "d"] [["a", "b", "c", "d"]] 4 = 1 :=
  ⟨by decide, C2_self_match_bleu ["a", "b", "c", "d"] (by decide)⟩

end CodeBLEU
